import Mathlib

/-!
Verification development for the bugcrawl crawler (src/src/lib.rs).

The definitions below are a shallow embedding of the completed, file-based
crawl design in `lib.rs`: the pagination walker (`list_issues`,
`list_issues_page`, `process_issue_page`), the local-inventory filter (the
inline `filter` closure in `bugcrawl`, lines 133-142), the issue downloader
(`download_issue`, `path_for_issue`) and the orchestrator (`bugcrawl`).

External effects (HTTP responses, filesystem call results, metadata checks) are
passed in explicitly as environment values, and each modelled function
returns its result together with the list of observable events it performs
(requests, file writes, renames, sleeps).  The network client construction,
the tokio runtime and the console logging of `eprintln!` are not modelled:
they are out of scope of the core design.
-/

/-- Design constant `MAX_ISSUE_LEN` (lib.rs line 27): maximum issue body
size in bytes. -/
def MAX_ISSUE_LEN : Nat := 1024 * 1024

/-- Number of UTF-8 bytes of a string; models Rust `String::len()`. -/
def byteLen (s : String) : Nat :=
  s.data.foldr (fun c n => c.utf8Size + n) 0

/-- Models `reqwest::StatusCode::is_success`: status in 200..=299. -/
def statusIsSuccess (status : Nat) : Bool :=
  decide (200 ≤ status) && decide (status < 300)

/-- Error type of the crawl (lib.rs lines 36-69): a single human-readable
message, built by the various `From` conversions. -/
structure BugcrawlError where
  message : String
  deriving DecidableEq

/-- One element of a listing page (lib.rs lines 174-182). -/
structure IssueListItem where
  id : String
  key : String
  synopsis : String
  resolution : Option String
  updated : String
  created : String
  deriving DecidableEq

/-- One listing page (lib.rs lines 166-172). -/
structure IssueListPage where
  offset : Nat
  total : Nat
  sort : String
  issues : List IssueListItem
  deriving DecidableEq

/-- Observable events of a crawl run: listing requests, issue requests,
file writes, renames (with whether the rename succeeded) and sleeps. -/
inductive Event where
  | listRequest (sort : String) (offset : Nat)
  | issueRequest (issue_id : String)
  | fsWrite (path content : String)
  | fsRename (src dst : String) (ok : Bool)
  | sleep (ms : Nat)
  deriving DecidableEq

/-- The events of one successful listing-page call (lib.rs lines 208-251):
the GET request followed by the fixed 500ms sleep. -/
def pageEvents (offset : Nat) : List Event :=
  [Event.listRequest "created" offset, Event.sleep 500]

/-- `process_issue_page` (lib.rs lines 253-262): append every summary's
`key` field to the accumulated identifier list, in page order. -/
def process_issue_page (page : IssueListPage) (issue_ids : List String) :
    List String :=
  issue_ids ++ page.issues.map (fun item => item.key)

/-- The loop body of `list_issues` (lib.rs lines 184-200), with explicit
fuel standing for the number of iterations still allowed; the source has no
loop-count cap, so `none` means the loop has not finished within `fuel`
iterations.  `server` maps the query parameters (`sort`, `offset`) to the
decoded page of the response. -/
def list_issues_go (server : String → Nat → IssueListPage) :
    Nat → Nat → List String → List Event → Option (List String × List Event)
  | 0, _, _, _ => none
  | fuel + 1, offset, issue_ids, events =>
    let page := server "created" offset
    let issue_ids' := process_issue_page page issue_ids
    let events' := events ++ pageEvents offset
    if page.total ≤ page.offset + page.issues.length then
      some (issue_ids', events')
    else
      list_issues_go server fuel (page.offset + page.issues.length)
        issue_ids' events'

/-- `list_issues` (lib.rs lines 184-200): walk the listing starting at
offset 0. -/
def list_issues (server : String → Nat → IssueListPage) (fuel : Nat) :
    Option (List String × List Event) :=
  list_issues_go server fuel 0 [] []

/-- The page the walker observes at a given requested offset. -/
def pageAt (server : String → Nat → IssueListPage) (offset : Nat) :
    IssueListPage :=
  server "created" offset

/-- The next offset computed by the walker from the page served at
`offset`: `page.offset + page.issues.len()` (lib.rs line 193). -/
def stepOffset (server : String → Nat → IssueListPage) (offset : Nat) : Nat :=
  (pageAt server offset).offset + (pageAt server offset).issues.length

/-- The loop's stop condition at a requested offset:
`page.offset + page.issues.len() >= page.total` (lib.rs line 194). -/
def pageDone (server : String → Nat → IssueListPage) (offset : Nat) : Bool :=
  decide ((pageAt server offset).total ≤ stepOffset server offset)

/-- Concatenation of the per-page event blocks for a list of offsets. -/
def walkEvents : List Nat → List Event
  | [] => []
  | o :: rest => pageEvents o ++ walkEvents rest

/-- Request offsets occurring in an event list, in order. -/
def listOffsets (events : List Event) : List Nat :=
  events.filterMap (fun e =>
    match e with
    | Event.listRequest _ o => some o
    | _ => none)

theorem listOffsets_append (l₁ l₂ : List Event) :
    listOffsets (l₁ ++ l₂) = listOffsets l₁ ++ listOffsets l₂ := by
  simp [listOffsets]

theorem listOffsets_walkEvents (offs : List Nat) :
    listOffsets (walkEvents offs) = offs := by
  induction offs with
  | nil => rfl
  | cons o rest ih =>
      simp [walkEvents, listOffsets_append, ih]
      rfl

/-- Every listing request in a walk is made with `sort="created"`. -/
theorem walkEvents_sort (offs : List Nat) (s : String) (o : Nat)
    (h : Event.listRequest s o ∈ walkEvents offs) : s = "created" := by
  induction offs with
  | nil => cases h
  | cons o' rest ih =>
      rw [walkEvents, List.mem_append] at h
      rcases h with h | h
      · rw [pageEvents, List.mem_cons, List.mem_singleton] at h
        rcases h with h | h
        · cases h; rfl
        · cases h
      · exact ih h

/--
Characterisation of a finished walk: the events produced are the per-page
blocks for a list of requested offsets that starts at the initial offset,
follows `stepOffset`, continues only over pages that are not done, and ends
at the first done page.
-/
theorem list_issues_go_spec (server : String → Nat → IssueListPage) :
    ∀ fuel offset acc events res events',
      list_issues_go server fuel offset acc events = some (res, events') →
      ∃ offs : List Nat,
        events' = events ++ walkEvents offs ∧
        offs.head? = some offset ∧
        List.Chain' (fun a b => b = stepOffset server a ∧
          pageDone server a = false) offs ∧
        (∀ o ∈ offs.dropLast, pageDone server o = false) ∧
        ∃ last, offs.getLast? = some last ∧ pageDone server last = true := by
  intro fuel
  induction fuel with
  | zero =>
      intro offset acc events res events' h
      simp [list_issues_go] at h
  | succ n ih =>
      intro offset acc events res events' h
      simp only [list_issues_go] at h
      by_cases hdone : (server "created" offset).total ≤
          (server "created" offset).offset +
            (server "created" offset).issues.length
      · rw [if_pos hdone] at h
        obtain ⟨-, hev⟩ := Prod.mk.injEq .. ▸ Option.some.inj h
        refine ⟨[offset], ?_, rfl, ?_, ?_, offset, rfl, ?_⟩
        · rw [← hev]; simp [walkEvents]
        · simp
        · intro o ho; simp [List.dropLast] at ho
        · simp [pageDone, pageAt, stepOffset, hdone]
      · rw [if_neg hdone] at h
        obtain ⟨offs, hev, hhead, hchain, hdl, last, hlast, hldone⟩ :=
          ih _ _ _ _ _ h
        have hne : offs ≠ [] := by
          intro hnil; rw [hnil] at hhead; cases hhead
        obtain ⟨o₁, rest, rfl⟩ := List.exists_cons_of_ne_nil hne
        have ho₁ : o₁ = stepOffset server offset := by
          simpa using hhead
        have hnotdone : pageDone server offset = false := by
          simp [pageDone, pageAt, stepOffset, hdone]
        refine ⟨offset :: o₁ :: rest, ?_, rfl, ?_, ?_, last, ?_, hldone⟩
        · rw [hev]; simp [walkEvents]
        · exact List.chain'_cons.mpr ⟨⟨ho₁, hnotdone⟩, hchain⟩
        · intro o ho
          rcases (by simpa [List.dropLast] using ho : o = offset ∨
              o ∈ (o₁ :: rest).dropLast) with rfl | hmem
          · exact hnotdone
          · exact hdl o hmem
        · simpa using hlast

/-! ### Synthetic listing service (for the pagination-completeness property) -/

/-- A summary record of the synthetic service, carrying the given key. -/
def syntheticItem (key : String) : IssueListItem :=
  { id := key, key := key, synopsis := "", resolution := none,
    updated := "", created := "" }

/-- Synthetic listing service serving the issues `ids` in pages of size `k`:
the page at a requested offset reports that offset, the fixed total
`ids.length`, and the next (at most) `k` issues. -/
def syntheticServer (ids : List String) (k : Nat) :
    String → Nat → IssueListPage :=
  fun _sort offset =>
    { offset := offset, total := ids.length, sort := "created",
      issues := ((ids.drop offset).take k).map syntheticItem }

theorem syntheticItem_keys (l : List String) :
    (l.map syntheticItem).map (fun item => item.key) = l := by
  induction l with
  | nil => rfl
  | cons a t ih => simp [syntheticItem, ih]

/-- One-step unfolding of the walker loop. -/
theorem list_issues_go_succ (server : String → Nat → IssueListPage)
    (fuel offset : Nat) (acc : List String) (events : List Event) :
    list_issues_go server (fuel + 1) offset acc events =
      if (server "created" offset).total ≤
          (server "created" offset).offset +
            (server "created" offset).issues.length then
        some (process_issue_page (server "created" offset) acc,
          events ++ pageEvents offset)
      else
        list_issues_go server fuel
          ((server "created" offset).offset +
            (server "created" offset).issues.length)
          (process_issue_page (server "created" offset) acc)
          (events ++ pageEvents offset) := rfl

/-- Progress lemma for the walker over the synthetic service: starting at
any offset with enough fuel, the walk finishes and accumulates exactly the
remaining identifiers, in order. -/
theorem synthetic_go (ids : List String) (k : Nat) (hk : 1 ≤ k) :
    ∀ fuel offset acc events,
      ids.length ≤ offset + fuel * k →
      ∃ events',
        list_issues_go (syntheticServer ids k) (fuel + 1) offset acc events
          = some (acc ++ ids.drop offset, events') := by
  intro fuel
  induction fuel with
  | zero =>
      intro offset acc events hle
      have hle' : ids.length ≤ offset := by simpa using hle
      have hdrop : ids.drop offset = [] := List.drop_eq_nil_of_le hle'
      refine ⟨events ++ pageEvents offset, ?_⟩
      rw [list_issues_go_succ]
      simp [syntheticServer, process_issue_page, hdrop, hle']
  | succ n ih =>
      intro offset acc events hle
      rw [list_issues_go_succ]
      simp only [syntheticServer, process_issue_page, List.length_map]
      by_cases hstop : ids.length ≤ offset + k
      · have htake : (ids.drop offset).take k = ids.drop offset := by
          apply List.take_of_length_le
          rw [List.length_drop]
          omega
        have hcond : ids.length ≤
            offset + ((ids.drop offset).take k).length := by
          rw [htake, List.length_drop]
          omega
        refine ⟨events ++ pageEvents offset, ?_⟩
        rw [if_pos hcond, htake, syntheticItem_keys]
      · have hklen : ((ids.drop offset).take k).length = k := by
          rw [List.length_take, List.length_drop]
          omega
        have hcond : ¬ ids.length ≤
            offset + ((ids.drop offset).take k).length := by
          rw [hklen]
          omega
        obtain ⟨events', hrec⟩ := ih (offset + k)
          (acc ++ (ids.drop offset).take k) (events ++ pageEvents offset)
          (by have hmul : (n + 1) * k = n * k + k := by ring
              omega)
        refine ⟨events', ?_⟩
        rw [if_neg hcond, hklen, syntheticItem_keys, hrec, List.append_assoc]
        have h1 : ids.drop (offset + k) = (ids.drop offset).drop k := by
          rw [List.drop_drop]
        rw [h1, List.take_append_drop]

/-- C1: over a synthetic listing service serving the identifiers `ids`
(N issues) in pages of size `k ≥ 1`, `list_issues` returns exactly the N
identifiers, in order — none skipped, none duplicated beyond repeats in the
source list itself — regardless of `k`.  The walk starts at offset 0 and
every listing request is made with `sort="created"`; the next offset after
each page is `page.offset + count(page.issues)` by definition of
`list_issues_go`. -/
theorem C1_pagination_completeness (ids : List String) (k : Nat)
    (hk : 1 ≤ k) :
    ∃ events,
      list_issues (syntheticServer ids k) (ids.length + 1)
        = some (ids, events) ∧
      (listOffsets events).head? = some 0 ∧
      ∀ s o, Event.listRequest s o ∈ events → s = "created" := by
  obtain ⟨events, hrun⟩ := synthetic_go ids k hk ids.length 0 [] []
    (by have h1 : ids.length ≤ ids.length * k :=
          Nat.le_mul_of_pos_right _ hk
        omega)
  have hrun' : list_issues_go (syntheticServer ids k) (ids.length + 1)
      0 [] [] = some (ids, events) := by
    simpa using hrun
  obtain ⟨offs, hev, hhead, -, -⟩ :=
    list_issues_go_spec (syntheticServer ids k) _ _ _ _ _ _ hrun'
  have hoffs : listOffsets events = offs := by
    rw [hev]
    simp [listOffsets_walkEvents]
  refine ⟨events, hrun', ?_, ?_⟩
  · rw [hoffs]
    exact hhead
  · intro s o hmem
    rw [hev] at hmem
    exact walkEvents_sort offs s o (by simpa using hmem)

/-- Witness for C1 at `ids = ["A", "B", "C"]`, `k = 2`. -/
theorem C1_pagination_completeness_witness :
    1 ≤ 2 ∧
    ∃ events,
      list_issues (syntheticServer ["A", "B", "C"] 2)
          (["A", "B", "C"].length + 1)
        = some (["A", "B", "C"], events) ∧
      (listOffsets events).head? = some 0 ∧
      ∀ s o, Event.listRequest s o ∈ events → s = "created" :=
  ⟨by decide, C1_pagination_completeness ["A", "B", "C"] 2 (by decide)⟩

/-! ### Termination and offset monotonicity of the walker -/

/-- The server echoes the requested offset in the page it serves. -/
def serverEchoes (server : String → Nat → IssueListPage) : Prop :=
  ∀ offset, (pageAt server offset).offset = offset

/-- A page with no issues is only served at or past the reported total:
the server never stalls the walker with an empty non-final page. -/
def serverNoStall (server : String → Nat → IssueListPage) : Prop :=
  ∀ offset, (pageAt server offset).issues = [] →
    (pageAt server offset).total ≤ offset

/-- Every total the server ever reports is at most `bound`. -/
def serverTotalBounded (server : String → Nat → IssueListPage)
    (bound : Nat) : Prop :=
  ∀ offset, (pageAt server offset).total ≤ bound

/-- At a page that does not satisfy the stop condition, the walker's next
offset strictly exceeds the requested one. -/
theorem stepOffset_gt (server : String → Nat → IssueListPage) (offset : Nat)
    (hecho : serverEchoes server) (hstall : serverNoStall server)
    (hnd : pageDone server offset = false) :
    offset < stepOffset server offset := by
  have hoff := hecho offset
  have htot : ¬ (pageAt server offset).total ≤ stepOffset server offset :=
    decide_eq_false_iff_not.mp hnd
  rcases Nat.eq_zero_or_pos (pageAt server offset).issues.length with
    hlen | hlen
  · exfalso
    have hnil : (pageAt server offset).issues = [] :=
      List.length_eq_zero.mp hlen
    have h2 := hstall offset hnil
    have h3 : stepOffset server offset = offset := by
      rw [stepOffset, hoff, hlen]
      omega
    omega
  · have h3 : stepOffset server offset
        = offset + (pageAt server offset).issues.length := by
      rw [stepOffset, hoff]
    omega

/-- With offsets echoing, no stalling and bounded totals, `bound + 1` loop
iterations always suffice for the walker to reach its stop condition. -/
theorem list_issues_go_terminates (server : String → Nat → IssueListPage)
    (bound : Nat) (hecho : serverEchoes server)
    (hstall : serverNoStall server)
    (hbound : serverTotalBounded server bound) :
    ∀ fuel offset acc events, bound ≤ offset + fuel →
      (list_issues_go server (fuel + 1) offset acc events).isSome := by
  intro fuel
  induction fuel with
  | zero =>
      intro offset acc events hle
      rw [list_issues_go_succ]
      have hdone : (server "created" offset).total ≤
          (server "created" offset).offset +
            (server "created" offset).issues.length := by
        have h1 := hbound offset
        have h2 := hecho offset
        rw [pageAt] at h1 h2
        omega
      rw [if_pos hdone]
      simp
  | succ n ih =>
      intro offset acc events hle
      rw [list_issues_go_succ]
      by_cases hdone : (server "created" offset).total ≤
          (server "created" offset).offset +
            (server "created" offset).issues.length
      · rw [if_pos hdone]
        simp
      · rw [if_neg hdone]
        have hnd : pageDone server offset = false := by
          simp [pageDone, pageAt, stepOffset, hdone]
        have hlt := stepOffset_gt server offset hecho hstall hnd
        have hstep : (server "created" offset).offset +
            (server "created" offset).issues.length
            = stepOffset server offset := rfl
        rw [hstep]
        exact ih (stepOffset server offset) _ _ (by omega)

/-- C3 (amended): for a server that echoes requested offsets, never serves
an empty page short of its reported total, and whose reported totals stay
at or below a fixed `bound` (in particular, an unchanged total), the walk
finishes within `bound + 1` pages on its own (the source loop has no
explicit loop-count cap); its request offsets start at 0 and are strictly
increasing, every page before the last fails the stop condition, and the
walk stops at the first page with `offset + len(issues) ≥ total`. -/
theorem C3_termination_monotone (server : String → Nat → IssueListPage)
    (bound : Nat) (hecho : serverEchoes server)
    (hstall : serverNoStall server)
    (hbound : serverTotalBounded server bound) :
    ∃ res events, list_issues server (bound + 1) = some (res, events) ∧
      (listOffsets events).head? = some 0 ∧
      List.Chain' (fun a b => a < b) (listOffsets events) ∧
      (∀ o ∈ (listOffsets events).dropLast, pageDone server o = false) ∧
      ∃ last, (listOffsets events).getLast? = some last ∧
        pageDone server last = true := by
  have hsome := list_issues_go_terminates server bound hecho hstall hbound
    bound 0 [] [] (by omega)
  obtain ⟨⟨res, events⟩, hrun⟩ := Option.isSome_iff_exists.mp hsome
  obtain ⟨offs, hev, hhead, hchain, hdl, last, hlast, hldone⟩ :=
    list_issues_go_spec server _ _ _ _ _ _ hrun
  have hoffs : listOffsets events = offs := by
    rw [hev]
    simp [listOffsets_walkEvents]
  refine ⟨res, events, hrun, ?_, ?_, ?_, last, ?_, hldone⟩
  · rw [hoffs]
    exact hhead
  · rw [hoffs]
    exact hchain.imp (fun a b hab =>
      hab.1 ▸ stepOffset_gt server a hecho hstall hab.2)
  · rw [hoffs]
    exact hdl
  · rw [hoffs]
    exact hlast

/-- The synthetic service never stalls: an empty page means the requested
offset already covers the whole identifier list. -/
theorem syntheticServer_noStall (ids : List String) (k : Nat) (hk : 1 ≤ k) :
    serverNoStall (syntheticServer ids k) := by
  intro offset hnil
  show ids.length ≤ offset
  by_contra h
  push_neg at h
  have hnil' : ((ids.drop offset).take k).map syntheticItem = [] := hnil
  have h0 : ((ids.drop offset).take k).length = 0 := by
    have hc := congrArg List.length hnil'
    simpa using hc
  rw [List.length_take, List.length_drop] at h0
  omega

/-- Witness for C3 (amended) at the synthetic service over two issues with
page size 1 and total bound 2. -/
theorem C3_termination_monotone_witness :
    serverEchoes (syntheticServer ["A", "B"] 1) ∧
    serverNoStall (syntheticServer ["A", "B"] 1) ∧
    serverTotalBounded (syntheticServer ["A", "B"] 1) 2 ∧
    (∃ res events,
      list_issues (syntheticServer ["A", "B"] 1) (2 + 1)
        = some (res, events) ∧
      (listOffsets events).head? = some 0 ∧
      List.Chain' (fun a b => a < b) (listOffsets events) ∧
      (∀ o ∈ (listOffsets events).dropLast,
        pageDone (syntheticServer ["A", "B"] 1) o = false) ∧
      ∃ last, (listOffsets events).getLast? = some last ∧
        pageDone (syntheticServer ["A", "B"] 1) last = true) :=
  ⟨fun _ => rfl, syntheticServer_noStall _ _ (by decide), fun _ => le_rfl,
   C3_termination_monotone (syntheticServer ["A", "B"] 1) 2 (fun _ => rfl)
     (syntheticServer_noStall _ _ (by decide)) (fun _ => le_rfl)⟩

/-- A listing service whose reported total keeps growing ahead of the
served offsets: the page at offset `o` reports total `o + 2` and serves
exactly one issue. -/
def growServer : String → Nat → IssueListPage :=
  fun _sort offset =>
    { offset := offset, total := offset + 2, sort := "created",
      issues := [syntheticItem "GROW-1"] }

/-- Totals reported by `growServer` are monotonically non-decreasing
relative to the served offsets. -/
def growTotalsMonotone : Prop :=
  ∀ o o', o ≤ o' →
    (pageAt growServer o).total ≤ (pageAt growServer o').total

/-- The walker terminates on a server if some amount of fuel makes the
loop reach its stop condition. -/
def listTerminates (server : String → Nat → IssueListPage) : Prop :=
  ∃ fuel, (list_issues server fuel).isSome

theorem growServer_go_none :
    ∀ fuel offset acc events,
      list_issues_go growServer fuel offset acc events = none := by
  intro fuel
  induction fuel with
  | zero => intro offset acc events; rfl
  | succ n ih =>
      intro offset acc events
      rw [list_issues_go_succ]
      have hcond : ¬ (growServer "created" offset).total ≤
          (growServer "created" offset).offset +
            (growServer "created" offset).issues.length := by
        show ¬ (offset + 2 ≤ offset + 1)
        omega
      rw [if_neg hcond]
      exact ih _ _ _

/-- C3 counterexample: `growServer` reports totals that are monotonically
non-decreasing relative to the served offsets, yet the walker's loop never
reaches its stop condition — the claim that the loop terminates whenever
the remote total is monotonically non-decreasing is false. -/
theorem C3_counterexample :
    growTotalsMonotone ∧ ¬ listTerminates growServer := by
  constructor
  · intro o o' h
    show o + 2 ≤ o' + 2
    omega
  · rintro ⟨fuel, hf⟩
    simp [list_issues, growServer_go_none] at hf

/-! ### The issue downloader -/

/-- `path_for_issue` (lib.rs lines 264-272): `<directory>/<identifier>.json`,
with an extra `.tmp` suffix for the temporary path. -/
def path_for_issue (filepath issue_id : String) (tmp : Bool) : String :=
  filepath ++ "/" ++ issue_id ++ ".json" ++ (if tmp then ".tmp" else "")

/-- Outcome of one HTTP GET as observed by the crawler: a transport-level
failure, or a response with a status code and a body read as text. -/
inductive HttpOutcome where
  | transportError (msg : String)
  | response (status : Nat) (body : String)

/-- External outcomes one `download_issue` call would observe: the HTTP
exchange, the result of `std::fs::write`, and the result of
`std::fs::rename`. -/
structure DownloadEnv where
  http : HttpOutcome
  writeRes : Except String Unit
  renameRes : Except String Unit

def renameOkBool : Except String Unit → Bool
  | .ok _ => true
  | .error _ => false

/-- `download_issue` (lib.rs lines 274-331): fetch one issue, check the
status, read the body, enforce `MAX_ISSUE_LEN`, write the body to the
temporary path, rename it onto the final path, sleep 3000ms.  The source
discards the `Result` of `std::fs::rename` (line 327 has no `?`), so the
call returns `Ok` regardless of `renameRes`; the rename event records
whether the rename actually succeeded. -/
def download_issue (env : DownloadEnv) (filepath issue_id : String) :
    Except BugcrawlError Unit × List Event :=
  match env.http with
  | .transportError m =>
      (.error { message := "request error: " ++ m },
       [Event.issueRequest issue_id])
  | .response status body =>
      if statusIsSuccess status then
        if MAX_ISSUE_LEN < byteLen body then
          (.error { message := "issue " ++ issue_id ++ " was too big ("
              ++ toString (byteLen body) ++ " bytes, max is "
              ++ toString MAX_ISSUE_LEN ++ " bytes)" },
           [Event.issueRequest issue_id])
        else
          match env.writeRes with
          | .error e =>
              (.error { message := "request error: " ++ e },
               [Event.issueRequest issue_id,
                Event.fsWrite (path_for_issue filepath issue_id true) body])
          | .ok _ =>
              (.ok (),
               [Event.issueRequest issue_id,
                Event.fsWrite (path_for_issue filepath issue_id true) body,
                Event.fsRename (path_for_issue filepath issue_id true)
                  (path_for_issue filepath issue_id false)
                  (renameOkBool env.renameRes),
                Event.sleep 3000])
      else
        (.error { message := "unexpected response code: " ++ toString status },
         [Event.issueRequest issue_id])

/-- On a successful response of acceptable size with a successful write,
`download_issue` returns `Ok` and performs exactly request, write, rename
(successful or not) and the 3000ms sleep. -/
theorem download_issue_ok_spec (env : DownloadEnv)
    (filepath issue_id : String) (status : Nat) (body : String)
    (hhttp : env.http = .response status body)
    (hst : statusIsSuccess status = true)
    (hlen : byteLen body ≤ MAX_ISSUE_LEN)
    (hw : env.writeRes = .ok ()) :
    download_issue env filepath issue_id
      = (.ok (),
         [Event.issueRequest issue_id,
          Event.fsWrite (path_for_issue filepath issue_id true) body,
          Event.fsRename (path_for_issue filepath issue_id true)
            (path_for_issue filepath issue_id false)
            (renameOkBool env.renameRes),
          Event.sleep 3000]) := by
  rcases env with ⟨http, w, r⟩
  simp only at hhttp hw
  subst hhttp
  subst hw
  simp only [download_issue, hst, if_true]
  rw [if_neg (Nat.not_lt.mpr hlen)]

/-! ### Paths: the final path is never the temporary path -/

/-- Last character of a string. -/
def lastChar (s : String) : Option Char := s.data.getLast?

theorem lastChar_append (s t : String) (c : Char)
    (h : lastChar t = some c) : lastChar (s ++ t) = some c := by
  rw [lastChar] at h ⊢
  rw [String.data_append, List.getLast?_append, h]
  rfl

theorem path_for_issue_false (filepath issue_id : String) :
    path_for_issue filepath issue_id false
      = filepath ++ "/" ++ issue_id ++ ".json" := by
  rw [path_for_issue]
  simp

theorem path_for_issue_true (filepath issue_id : String) :
    path_for_issue filepath issue_id true
      = filepath ++ "/" ++ issue_id ++ ".json" ++ ".tmp" := by
  rw [path_for_issue]
  simp

/-- A final issue path (ending in `.json`) is never a temporary path
(ending in `.tmp`), whatever the identifiers. -/
theorem path_for_issue_ne (filepath a b : String) :
    path_for_issue filepath a false ≠ path_for_issue filepath b true := by
  intro h
  have h1 : lastChar (path_for_issue filepath a false) = some 'n' := by
    rw [path_for_issue_false]
    exact lastChar_append _ _ _ (by decide)
  have h2 : lastChar (path_for_issue filepath b true) = some 'p' := by
    rw [path_for_issue_true]
    exact lastChar_append _ _ _ (by decide)
  rw [h, h2] at h1
  exact absurd h1 (by decide)

/-! ### Atomic publish: filesystem micro-step model -/

/-- A filesystem state: path to file content, `none` when absent. -/
def FS : Type := String → Option String

/-- Set one path of a filesystem state. -/
def setFile (fs : FS) (path : String) (v : Option String) : FS :=
  fun q => if q = path then v else fs q

/-- The two filesystem operations the downloader performs. -/
inductive FsOp where
  | write (path content : String)
  | rename (src dst : String)
  deriving DecidableEq

/-- Effect of a completed filesystem operation. -/
def applyFsOp (fs : FS) : FsOp → FS
  | .write p c => setFile fs p (some c)
  | .rename s d => setFile (setFile fs d (fs s)) s none

/-- The filesystem operations of one issue download, in source order
(lib.rs lines 324-327): write the body to the temporary path, then rename
the temporary path onto the final path. -/
def download_ops (filepath issue_id content : String) : List FsOp :=
  [FsOp.write (path_for_issue filepath issue_id true) content,
   FsOp.rename (path_for_issue filepath issue_id true)
     (path_for_issue filepath issue_id false)]

/-- States reachable while executing a list of filesystem operations from
`fs`, allowing the run to stop before, between or after operations, and a
write to be interrupted leaving any prefix of its content; a rename is
atomic — it either happened entirely or not at all. -/
inductive MidState : FS → List FsOp → FS → Prop where
  | here (fs : FS) (ops : List FsOp) : MidState fs ops fs
  | midWrite (fs : FS) (p c c' : String) (ops : List FsOp)
      (hpre : ∃ rest, c' ++ rest = c) :
      MidState fs (FsOp.write p c :: ops) (setFile fs p (some c'))
  | step (fs : FS) (op : FsOp) (ops : List FsOp) (fs' : FS)
      (h : MidState (applyFsOp fs op) ops fs') :
      MidState fs (op :: ops) fs'

/-- Filesystem operations successfully performed within an event list. -/
def fsOpsOfEvents (events : List Event) : List FsOp :=
  events.filterMap (fun e =>
    match e with
    | Event.fsWrite p c => some (FsOp.write p c)
    | Event.fsRename s d true => some (FsOp.rename s d)
    | _ => none)

/-- C2: the downloader's filesystem operations are exactly: write the body
to `<directory>/<identifier>.json.tmp`, then rename that temporary path to
the final `<directory>/<identifier>.json` — the rename being the single
publish point.  In every state reachable while executing those operations
(before, between, after them, or with the write interrupted after any
prefix of the body), the final path is either absent or holds the fully
written body — never a partial one. -/
theorem C2_atomic_publish (filepath issue_id content : String)
    (env : DownloadEnv) (status : Nat) (fs0 fsMid : FS)
    (hhttp : env.http = .response status content)
    (hst : statusIsSuccess status = true)
    (hlen : byteLen content ≤ MAX_ISSUE_LEN)
    (hw : env.writeRes = .ok ())
    (hr : env.renameRes = .ok ())
    (hmid : MidState fs0 (download_ops filepath issue_id content) fsMid)
    (h0 : fs0 (path_for_issue filepath issue_id false) = none) :
    fsOpsOfEvents (download_issue env filepath issue_id).snd
      = download_ops filepath issue_id content ∧
    (fsMid (path_for_issue filepath issue_id false) = none ∨
     fsMid (path_for_issue filepath issue_id false) = some content) := by
  have hne := path_for_issue_ne filepath issue_id issue_id
  constructor
  · rw [download_issue_ok_spec env filepath issue_id status content hhttp hst
      hlen hw, hr]
    rfl
  · simp only [download_ops] at hmid
    cases hmid with
    | here => exact Or.inl h0
    | midWrite fs p c c' ops hpre =>
        left
        rw [setFile, if_neg hne]
        exact h0
    | step fs op ops fs' h1 =>
        cases h1 with
        | here =>
            left
            show setFile fs0 (path_for_issue filepath issue_id true)
              (some content) (path_for_issue filepath issue_id false) = none
            rw [setFile, if_neg hne]
            exact h0
        | step fs2 op2 ops2 fs'' h2 =>
            cases h2 with
            | here =>
                right
                show applyFsOp
                  (applyFsOp fs0
                    (FsOp.write (path_for_issue filepath issue_id true)
                      content))
                  (FsOp.rename (path_for_issue filepath issue_id true)
                    (path_for_issue filepath issue_id false))
                  (path_for_issue filepath issue_id false) = some content
                simp [applyFsOp, setFile, hne]

/-- Environment for the C2 witness. -/
def envW : DownloadEnv :=
  { http := .response 200 "x", writeRes := .ok (), renameRes := .ok () }

/-- The empty filesystem. -/
def fsEmpty : FS := fun _ => none

/-- Witness for C2: concrete download of body `"x"` observed at the
initial (empty) filesystem state. -/
theorem C2_atomic_publish_witness :
    envW.http = HttpOutcome.response 200 "x" ∧
    statusIsSuccess 200 = true ∧
    byteLen "x" ≤ MAX_ISSUE_LEN ∧
    envW.writeRes = Except.ok () ∧
    envW.renameRes = Except.ok () ∧
    MidState fsEmpty (download_ops "bugs" "ISSUE-1" "x") fsEmpty ∧
    fsEmpty (path_for_issue "bugs" "ISSUE-1" false) = none ∧
    (fsOpsOfEvents (download_issue envW "bugs" "ISSUE-1").snd
        = download_ops "bugs" "ISSUE-1" "x" ∧
     (fsEmpty (path_for_issue "bugs" "ISSUE-1" false) = none ∨
      fsEmpty (path_for_issue "bugs" "ISSUE-1" false) = some "x")) :=
  ⟨rfl, by decide, by decide, rfl, rfl, MidState.here _ _, rfl,
   C2_atomic_publish "bugs" "ISSUE-1" "x" envW 200 fsEmpty fsEmpty rfl
     (by decide) (by decide) rfl rfl (MidState.here _ _) rfl⟩

/-- `byteLen` of an `n`-fold repetition of one character. -/
theorem byteLen_replicate (n : Nat) (c : Char) :
    byteLen (String.mk (List.replicate n c)) = n * c.utf8Size := by
  induction n with
  | zero => simp [byteLen]
  | succ m ih =>
      have ih' : (List.replicate m c).foldr (fun ch k => ch.utf8Size + k) 0
          = m * c.utf8Size := ih
      show (List.replicate (m + 1) c).foldr (fun ch k => ch.utf8Size + k) 0
          = (m + 1) * c.utf8Size
      rw [List.replicate_succ, List.foldr_cons, ih']
      ring

/-- An ASCII body of exactly `MAX_ISSUE_LEN` bytes. -/
def capBody : String := String.mk (List.replicate MAX_ISSUE_LEN 'a')

/-- An ASCII body of exactly `MAX_ISSUE_LEN + 1` bytes. -/
def overBody : String := String.mk (List.replicate (MAX_ISSUE_LEN + 1) 'a')

theorem byteLen_capBody : byteLen capBody = MAX_ISSUE_LEN := by
  rw [capBody, byteLen_replicate]
  have h : 'a'.utf8Size = 1 := by decide
  rw [h, Nat.mul_one]

theorem byteLen_overBody : byteLen overBody = MAX_ISSUE_LEN + 1 := by
  rw [overBody, byteLen_replicate]
  have h : 'a'.utf8Size = 1 := by decide
  rw [h, Nat.mul_one]

/-- C4: with a successful HTTP response, a body of exactly `MAX_ISSUE_LEN`
bytes succeeds (given a successful write), while a body exceeding the cap
by at least one byte fails with the oversize error carrying the
identifier, the observed size and the limit, the body is discarded, and no
filesystem operation is performed — no temporary and no final file. -/
theorem C4_size_cap (filepath issue_id body : String) (status : Nat)
    (w r : Except String Unit) (hst : statusIsSuccess status = true) :
    (byteLen body = MAX_ISSUE_LEN →
      (download_issue
          { http := .response status body, writeRes := .ok (),
            renameRes := r } filepath issue_id).fst = .ok ()) ∧
    (MAX_ISSUE_LEN + 1 ≤ byteLen body →
      download_issue
          { http := .response status body, writeRes := w, renameRes := r }
          filepath issue_id
        = (.error { message := "issue " ++ issue_id ++ " was too big ("
            ++ toString (byteLen body) ++ " bytes, max is "
            ++ toString MAX_ISSUE_LEN ++ " bytes)" },
           [Event.issueRequest issue_id])) := by
  constructor
  · intro hlen
    rw [download_issue_ok_spec _ filepath issue_id status body rfl hst
      (le_of_eq hlen) rfl]
  · intro hlen
    simp only [download_issue, hst, if_true]
    rw [if_pos (by omega)]

/-- Witness for C4: the at-cap body succeeds, the one-byte-over body fails
with the oversize error and leaves no trace of a file operation. -/
theorem C4_size_cap_witness :
    statusIsSuccess 200 = true ∧
    (download_issue
        { http := .response 200 capBody, writeRes := .ok (),
          renameRes := .ok () } "bugs" "ISSUE-1").fst = .ok () ∧
    download_issue
        { http := .response 200 overBody, writeRes := .ok (),
          renameRes := .ok () } "bugs" "ISSUE-1"
      = (.error { message := "issue " ++ "ISSUE-1" ++ " was too big ("
          ++ toString (byteLen overBody) ++ " bytes, max is "
          ++ toString MAX_ISSUE_LEN ++ " bytes)" },
         [Event.issueRequest "ISSUE-1"]) :=
  ⟨by decide,
   (C4_size_cap "bugs" "ISSUE-1" capBody 200 (.ok ()) (.ok ())
      (by decide)).1 byteLen_capBody,
   (C4_size_cap "bugs" "ISSUE-1" overBody 200 (.ok ()) (.ok ())
      (by decide)).2 (le_of_eq byteLen_overBody.symm)⟩

/-- C6: evaluation at the failing input.  A failed rename (permission
denied) is silently ignored — `download_issue` still returns `Ok` —
because the source discards the `Result` of `std::fs::rename` (lib.rs
line 327, no `?`).  A failed write aborts with an error, as do transport
failures and non-success statuses. -/
theorem C6_rename_failure_ignored :
    (download_issue
        { http := .response 200 "body", writeRes := .ok (),
          renameRes := .error "permission denied" } "bugs" "ISSUE-1").fst
      = .ok () ∧
    (download_issue
        { http := .response 200 "body", writeRes := .error "disk full",
          renameRes := .ok () } "bugs" "ISSUE-1").fst
      = .error { message := "request error: disk full" } ∧
    (download_issue
        { http := .transportError "connection refused", writeRes := .ok (),
          renameRes := .ok () } "bugs" "ISSUE-1").fst
      = .error { message := "request error: connection refused" } ∧
    (download_issue
        { http := .response 500 "body", writeRes := .ok (),
          renameRes := .ok () } "bugs" "ISSUE-1").fst
      = .error { message := "unexpected response code: 500" } :=
  ⟨rfl, rfl, rfl, rfl⟩

/-- C7 counterexample: after a successful download the sleep performed is
3000ms — not the claimed 1500ms — and a failed download attempt (here a
500 response) performs no sleep at all. -/
theorem C7_counterexample :
    (download_issue
        { http := .response 200 "body", writeRes := .ok (),
          renameRes := .ok () } "bugs" "ISSUE-1").snd
      = [Event.issueRequest "ISSUE-1",
         Event.fsWrite "bugs/ISSUE-1.json.tmp" "body",
         Event.fsRename "bugs/ISSUE-1.json.tmp" "bugs/ISSUE-1.json" true,
         Event.sleep 3000] ∧
    Event.sleep 1500 ∉
      (download_issue
        { http := .response 200 "body", writeRes := .ok (),
          renameRes := .ok () } "bugs" "ISSUE-1").snd ∧
    (download_issue
        { http := .response 500 "body", writeRes := .ok (),
          renameRes := .ok () } "bugs" "ISSUE-1").snd
      = [Event.issueRequest "ISSUE-1"] :=
  ⟨rfl, by decide, rfl⟩

/-- C7 (amended): after each successful issue download — even one whose
rename failed — the pacing delay applied is a fixed 3000ms sleep, the last
event of the call; a failed download attempt performs no sleep (its error
aborts the run, so no next identifier is processed); and after each
listing page the fixed 500ms delay is applied: every finished walk's event
list is a concatenation of request-then-500ms-sleep blocks. -/
theorem C7_pacing (env : DownloadEnv) (filepath issue_id : String)
    (status : Nat) (body : String)
    (hhttp : env.http = .response status body)
    (hst : statusIsSuccess status = true)
    (hlen : byteLen body ≤ MAX_ISSUE_LEN)
    (hw : env.writeRes = .ok ()) :
    (download_issue env filepath issue_id).snd.getLast?
      = some (Event.sleep 3000) ∧
    (∀ (env' : DownloadEnv) (e : BugcrawlError),
      (download_issue env' filepath issue_id).fst = .error e →
      ∀ ms, Event.sleep ms ∉ (download_issue env' filepath issue_id).snd) ∧
    (∀ (server : String → Nat → IssueListPage) (fuel : Nat)
      (res : List String) (events : List Event),
      list_issues server fuel = some (res, events) →
      ∃ offs : List Nat, events = walkEvents offs) := by
  refine ⟨?_, ?_, ?_⟩
  · rw [download_issue_ok_spec env filepath issue_id status body hhttp hst
      hlen hw]
    rfl
  · intro env' e herr ms hmem
    rcases env' with ⟨http, w, r⟩
    cases http with
    | transportError m =>
        simp only [download_issue] at hmem
        simp at hmem
    | response st b =>
        by_cases hs : statusIsSuccess st
        · simp only [download_issue, hs, if_true] at herr hmem
          by_cases hb : MAX_ISSUE_LEN < byteLen b
          · rw [if_pos hb] at hmem
            simp at hmem
          · rw [if_neg hb] at herr hmem
            cases w with
            | error e' => simp at hmem
            | ok u => simp at herr
        · rw [Bool.not_eq_true] at hs
          simp only [download_issue, hs] at hmem
          simp at hmem
  · intro server fuel res events hrun
    obtain ⟨offs, hev, -, -, -, -⟩ :=
      list_issues_go_spec server _ _ _ _ _ _ hrun
    exact ⟨offs, by simpa using hev⟩

/-- Environment for the C7 witness. -/
def envPace : DownloadEnv :=
  { http := .response 200 "x", writeRes := .ok (), renameRes := .ok () }

/-- Witness for C7 (amended) at a concrete successful download. -/
theorem C7_pacing_witness :
    envPace.http = HttpOutcome.response 200 "x" ∧
    statusIsSuccess 200 = true ∧
    byteLen "x" ≤ MAX_ISSUE_LEN ∧
    envPace.writeRes = Except.ok () ∧
    ((download_issue envPace "bugs" "X").snd.getLast?
        = some (Event.sleep 3000) ∧
     (∀ (env' : DownloadEnv) (e : BugcrawlError),
       (download_issue env' "bugs" "X").fst = .error e →
       ∀ ms, Event.sleep ms ∉ (download_issue env' "bugs" "X").snd) ∧
     (∀ (server : String → Nat → IssueListPage) (fuel : Nat)
       (res : List String) (events : List Event),
       list_issues server fuel = some (res, events) →
       ∃ offs : List Nat, events = walkEvents offs)) :=
  ⟨rfl, by decide, by decide, rfl,
   C7_pacing envPace "bugs" "X" 200 "x" rfl (by decide) (by decide) rfl⟩

/-! ### Local inventory filter and the orchestrator -/

/-- Outcome of one `std::fs::metadata` existence check, as classified by
the closure in `bugcrawl` (lib.rs lines 135-141): the file exists, it does
not exist (`ErrorKind::NotFound`), or the check failed for another
reason. -/
inductive MetaResult where
  | found
  | notFound
  | ioError (msg : String)
  deriving DecidableEq

def MetaResult.isIoError : MetaResult → Bool
  | .ioError _ => true
  | _ => false

/-- Result of the inventory filter: the missing identifiers, or a panic —
the closure calls `panic!` on any metadata error other than not-found
(lib.rs line 139). -/
inductive FilterResult where
  | ok (issue_ids : List String)
  | panicked (msg : String)
  deriving DecidableEq

/-- The inline `filter` closure of `bugcrawl` (lib.rs lines 133-142):
keep an identifier iff the metadata check at its final path reports
not-found; a present file drops it; any other error panics with a message
naming the path. -/
def missingIssues (check : String → MetaResult) (filepath : String) :
    List String → FilterResult
  | [] => .ok []
  | issue_id :: rest =>
    match check (path_for_issue filepath issue_id false) with
    | .notFound =>
        (match missingIssues check filepath rest with
         | .ok l => .ok (issue_id :: l)
         | .panicked m => .panicked m)
    | .found => missingIssues check filepath rest
    | .ioError e =>
        .panicked ("failed to get local metadata for "
          ++ path_for_issue filepath issue_id false ++ ": " ++ e)

/-- The filter predicate: the identifier's final file is absent. -/
def isMissing (check : String → MetaResult) (filepath issue_id : String) :
    Bool :=
  decide (check (path_for_issue filepath issue_id false)
    = MetaResult.notFound)

/-- When no check errors, the filter is exactly `List.filter` with the
absence predicate. -/
theorem missingIssues_eq_filter (check : String → MetaResult)
    (filepath : String) :
    ∀ issue_ids : List String,
      (∀ id ∈ issue_ids,
        (check (path_for_issue filepath id false)).isIoError = false) →
      missingIssues check filepath issue_ids
        = .ok (issue_ids.filter (isMissing check filepath)) := by
  intro issue_ids
  induction issue_ids with
  | nil => intro _; rfl
  | cons issue_id rest ih =>
      intro h
      have hhead := h issue_id (List.mem_cons_self _ _)
      have hrest := ih (fun id hid => h id (List.mem_cons_of_mem _ hid))
      rw [missingIssues]
      cases hc : check (path_for_issue filepath issue_id false) with
      | notFound =>
          rw [hrest]
          have hp : isMissing check filepath issue_id = true := by
            rw [isMissing, hc]
            decide
          rw [List.filter_cons_of_pos hp]
      | found =>
          rw [hrest]
          have hp : isMissing check filepath issue_id = false := by
            rw [isMissing, hc]
            decide
          rw [List.filter_cons_of_neg (by rw [hp]; exact Bool.false_ne_true)]
      | ioError e =>
          rw [hc] at hhead
          cases hhead

/-- If some listed identifier's check errors, the filter panics. -/
theorem missingIssues_panics (check : String → MetaResult)
    (filepath : String) :
    ∀ issue_ids : List String,
      (∃ id ∈ issue_ids, ∃ e,
        check (path_for_issue filepath id false) = .ioError e) →
      ∃ m, missingIssues check filepath issue_ids = .panicked m := by
  intro issue_ids
  induction issue_ids with
  | nil => rintro ⟨id, hid, -⟩; cases hid
  | cons issue_id rest ih =>
      rintro ⟨id, hid, e, he⟩
      rw [missingIssues]
      cases hc : check (path_for_issue filepath issue_id false) with
      | notFound =>
          have hmem : id ∈ rest := by
            rcases List.mem_cons.mp hid with rfl | hmem
            · rw [hc] at he; cases he
            · exact hmem
          obtain ⟨m, hm⟩ := ih ⟨id, hmem, e, he⟩
          rw [hm]
          exact ⟨m, rfl⟩
      | found =>
          have hmem : id ∈ rest := by
            rcases List.mem_cons.mp hid with rfl | hmem
            · rw [hc] at he; cases he
            · exact hmem
          exact ih ⟨id, hmem, e, he⟩
      | ioError e' =>
          exact ⟨_, rfl⟩

/-- C5: when every existence check answers (no I/O error), the filter
returns the subsequence of the input containing exactly the identifiers
whose final file does not exist, in first-seen input order. -/
theorem C5_missing_filter (check : String → MetaResult) (filepath : String)
    (issue_ids : List String)
    (h : ∀ id ∈ issue_ids,
      (check (path_for_issue filepath id false)).isIoError = false) :
    ∃ out,
      missingIssues check filepath issue_ids = .ok out ∧
      out.Sublist issue_ids ∧
      out = issue_ids.filter (isMissing check filepath) ∧
      ∀ id, id ∈ out ↔ id ∈ issue_ids ∧
        check (path_for_issue filepath id false) = MetaResult.notFound := by
  refine ⟨issue_ids.filter (isMissing check filepath),
    missingIssues_eq_filter check filepath issue_ids h,
    List.filter_sublist _, rfl, ?_⟩
  intro id
  rw [List.mem_filter, isMissing, decide_eq_true_eq]

/-- The directory state of the C5 witness: only `B`'s file exists. -/
def exampleCheck : String → MetaResult :=
  fun p => if p = "bugs/B.json" then .found else .notFound

/-- Witness for C5, the spec's own example: identifiers `[A, B, C]` with an
existing file only for `B` give the missing subset `[A, C]`, in order. -/
theorem C5_missing_filter_witness :
    missingIssues exampleCheck "bugs" ["A", "B", "C"] = .ok ["A", "C"] := by
  obtain ⟨out, h1, -, h3, -⟩ :=
    C5_missing_filter exampleCheck "bugs" ["A", "B", "C"] (by decide)
  rw [h1, h3]
  decide

/-- SQLite open flags (rusqlite's `OpenFlags` bits), as selected by
`bugcrawl` from `params.readonly` (lib.rs lines 99-104). -/
def SQLITE_OPEN_READ_ONLY : Nat := 1

def SQLITE_OPEN_READ_WRITE : Nat := 2

def SQLITE_OPEN_CREATE : Nat := 4

/-- The flag computation of lib.rs lines 99-104; the resulting value is
never used afterwards. -/
def sqlite_flags_for (readonly : Bool) : Nat :=
  match readonly with
  | true => SQLITE_OPEN_READ_ONLY
  | false => SQLITE_OPEN_READ_WRITE ||| SQLITE_OPEN_CREATE

/-- `BugcrawlParams` (lib.rs lines 31-34). -/
structure BugcrawlParams where
  filepath : String
  readonly : Bool

/-- The `Bugcrawl` state struct (lib.rs lines 71-93).  The HTTP client and
tokio runtime are process resources represented here by the crawl
environment, and `Timespec` is represented as `Nat`. -/
structure Bugcrawl where
  filepath : String
  readonly : Bool
  initial_latest_update : Option Nat
  ntotalbugs : Nat
  ndbupdated : Nat

/-- Environment of one crawl run: the result of creating the directory,
the listing service, the metadata-check oracle, and the per-issue download
outcomes. -/
structure CrawlEnv where
  mkdirRes : Except String Unit
  server : String → Nat → IssueListPage
  check : String → MetaResult
  issueEnv : String → DownloadEnv

/-- Result of a crawl run: success, an error returned to the caller, or a
process-aborting panic. -/
inductive CrawlResult where
  | ok
  | err (e : BugcrawlError)
  | panicked (msg : String)
  deriving DecidableEq

def CrawlResult.isError : CrawlResult → Bool
  | .err _ => true
  | _ => false

def CrawlResult.isPanic : CrawlResult → Bool
  | .panicked _ => true
  | _ => false

/-- A crawl run's observable outcome: its result and its event trace. -/
structure CrawlOutput where
  result : CrawlResult
  events : List Event
  deriving DecidableEq

/-- `init_directory` (lib.rs lines 162-164): `fs::create_dir_all`, its
error converted through `From<std::io::Error>`. -/
def init_directory (env : CrawlEnv) : Except BugcrawlError Unit :=
  match env.mkdirRes with
  | .ok _ => .ok ()
  | .error e => .error { message := "request error: " ++ e }

/-- The download loop of `bugcrawl` (lib.rs lines 146-157): download each
missing identifier in order; the `?` on `download_issue` aborts the run at
the first error. -/
def download_missing (env : CrawlEnv) (filepath : String) :
    List String → CrawlResult × List Event
  | [] => (.ok, [])
  | issue_id :: rest =>
    match download_issue (env.issueEnv issue_id) filepath issue_id with
    | (.error e, events) => (.err e, events)
    | (.ok _, events) =>
      match download_missing env filepath rest with
      | (r, events') => (r, events ++ events')

/-- `bugcrawl` (lib.rs lines 95-160): compute the SQLite flags (never used
afterwards), build the state struct, create the directory, list all issue
identifiers, filter out those already on disk, and download the rest.
`none` stands for a listing loop that has not finished within `fuel`
pages. -/
def bugcrawl (params : BugcrawlParams) (env : CrawlEnv) (fuel : Nat) :
    Option CrawlOutput :=
  let sqlite_flags := sqlite_flags_for params.readonly
  let bcp : Bugcrawl :=
    { filepath := params.filepath, readonly := params.readonly,
      initial_latest_update := none, ntotalbugs := 0, ndbupdated := 0 }
  match init_directory env with
  | .error e => some { result := .err e, events := [] }
  | .ok _ =>
    match list_issues env.server fuel with
    | none => none
    | some (issue_ids, listEvents) =>
      match missingIssues env.check bcp.filepath issue_ids with
      | .panicked m => some { result := .panicked m, events := listEvents }
      | .ok new_issue_ids =>
        match download_missing env bcp.filepath new_issue_ids with
        | (r, dlEvents) =>
          some { result := r, events := listEvents ++ dlEvents }

/-- C10: the crawl's observable behaviour — requests issued, files
written, returned result — is identical for two runs differing only in the
`readonly` parameter: the flag and the SQLite open flags derived from it
are computed but never consulted after the crawl state is constructed. -/
theorem C10_readonly_unobservable (filepath : String) (b1 b2 : Bool)
    (env : CrawlEnv) (fuel : Nat) :
    bugcrawl { filepath := filepath, readonly := b1 } env fuel
      = bugcrawl { filepath := filepath, readonly := b2 } env fuel := rfl

/-- Listing service of the C8 scenario: a single page with one issue. -/
def onePageServer : String → Nat → IssueListPage :=
  fun _sort offset =>
    { offset := offset, total := 1, sort := "created",
      issues := [syntheticItem "ISSUE-1"] }

/-- Crawl environment in which every metadata check fails with permission
denied. -/
def permEnv : CrawlEnv :=
  { mkdirRes := .ok (), server := onePageServer,
    check := fun _ => .ioError "permission denied",
    issueEnv := fun _ =>
      { http := .transportError "unused", writeRes := .ok (),
        renameRes := .ok () } }

/-- C8 counterexample: a permission-denied metadata check makes the crawl
abort through a panic, not through an error value surfaced to the
top-level caller — the run's result is a panic, not an error. -/
theorem C8_counterexample :
    (bugcrawl { filepath := "bugs", readonly := false } permEnv 1).map
        (fun out => (out.result.isError, out.result.isPanic))
      = some (false, true) := rfl

/-- C8 (amended): a metadata check failing for any reason other than
not-found is fatal to the whole crawl — the identifier is neither treated
as missing nor as present, and no download is attempted: the run's events
are the listing events alone — but the run aborts through a `panic!`
(lib.rs line 139) with a human-readable message, not through an error
value propagated to the top-level caller. -/
theorem C8_metadata_error_fatal (params : BugcrawlParams) (env : CrawlEnv)
    (fuel : Nat) (issue_ids : List String) (events : List Event)
    (issue_id : String) (e : String)
    (hmk : env.mkdirRes = .ok ())
    (hl : list_issues env.server fuel = some (issue_ids, events))
    (hmem : issue_id ∈ issue_ids)
    (herr : env.check (path_for_issue params.filepath issue_id false)
      = .ioError e) :
    ∃ m, bugcrawl params env fuel
        = some { result := .panicked m, events := events } ∧
      ∀ be : BugcrawlError, CrawlResult.panicked m ≠ CrawlResult.err be := by
  obtain ⟨m, hm⟩ := missingIssues_panics env.check params.filepath issue_ids
    ⟨issue_id, hmem, e, herr⟩
  have hinit : init_directory env = Except.ok () := by
    simp only [init_directory, hmk]
  refine ⟨m, ?_, ?_⟩
  · simp only [bugcrawl, hinit, hl, hm]
  · intro be h
    cases h

/-- Witness for C8 (amended) over the concrete permission-denied
environment. -/
theorem C8_metadata_error_fatal_witness :
    permEnv.mkdirRes = Except.ok () ∧
    list_issues permEnv.server 1
      = some (["ISSUE-1"],
              [Event.listRequest "created" 0, Event.sleep 500]) ∧
    "ISSUE-1" ∈ ["ISSUE-1"] ∧
    permEnv.check (path_for_issue "bugs" "ISSUE-1" false)
      = MetaResult.ioError "permission denied" ∧
    ∃ m, bugcrawl { filepath := "bugs", readonly := false } permEnv 1
        = some { result := .panicked m,
                 events := [Event.listRequest "created" 0,
                            Event.sleep 500] } ∧
      ∀ be : BugcrawlError, CrawlResult.panicked m ≠ CrawlResult.err be :=
  ⟨rfl, by decide, by decide, rfl,
   C8_metadata_error_fatal { filepath := "bugs", readonly := false } permEnv
     1 ["ISSUE-1"] [Event.listRequest "created" 0, Event.sleep 500]
     "ISSUE-1" "permission denied" rfl (by decide) (by decide) rfl⟩

/-! ### Idempotence -/

/-- Effect of one event on a filesystem state: writes set the path, a
successful rename moves the source content onto the destination, and all
other events (requests, sleeps, failed renames) leave the filesystem
unchanged. -/
def applyEvent (fs : FS) : Event → FS
  | Event.fsWrite p c => setFile fs p (some c)
  | Event.fsRename s d true => setFile (setFile fs d (fs s)) s none
  | Event.fsRename _ _ false => fs
  | Event.listRequest _ _ => fs
  | Event.issueRequest _ => fs
  | Event.sleep _ => fs

/-- Filesystem state after a list of events. -/
def applyEvents (fs : FS) (events : List Event) : FS :=
  events.foldl applyEvent fs

theorem applyEvents_append (fs : FS) (l₁ l₂ : List Event) :
    applyEvents fs (l₁ ++ l₂) = applyEvents (applyEvents fs l₁) l₂ := by
  simp [applyEvents]

/-- Walker events perform no filesystem change. -/
theorem applyEvents_walkEvents (offs : List Nat) :
    ∀ fs : FS, applyEvents fs (walkEvents offs) = fs := by
  induction offs with
  | nil => intro fs; rfl
  | cons o rest ih =>
      intro fs
      rw [walkEvents, applyEvents_append]
      exact ih _

/-- The metadata-check oracle corresponding to a filesystem state. -/
def checkOf (fs : FS) : String → MetaResult :=
  fun p =>
    match fs p with
    | some _ => MetaResult.found
    | none => MetaResult.notFound

theorem checkOf_isIoError (fs : FS) (p : String) :
    (checkOf fs p).isIoError = false := by
  simp only [checkOf]
  cases fs p <;> rfl

theorem checkOf_found_iff (fs : FS) (p : String) :
    checkOf fs p = MetaResult.found ↔ (fs p).isSome = true := by
  simp only [checkOf]
  cases fs p <;> simp

theorem checkOf_notFound_iff (fs : FS) (p : String) :
    checkOf fs p = MetaResult.notFound ↔ fs p = none := by
  simp only [checkOf]
  cases fs p <;> simp

/-- A per-issue download environment in which everything succeeds: a
successful response of acceptable size, a successful write and a
successful rename. -/
def envOk (env : DownloadEnv) : Prop :=
  (∃ status body, env.http = HttpOutcome.response status body ∧
    statusIsSuccess status = true ∧ byteLen body ≤ MAX_ISSUE_LEN) ∧
  env.writeRes = Except.ok () ∧ env.renameRes = Except.ok ()

/-- The event trace of one fully successful download. -/
def dlEvents (filepath issue_id body : String) : List Event :=
  [Event.issueRequest issue_id,
   Event.fsWrite (path_for_issue filepath issue_id true) body,
   Event.fsRename (path_for_issue filepath issue_id true)
     (path_for_issue filepath issue_id false) true,
   Event.sleep 3000]

theorem download_issue_envOk (env : DownloadEnv)
    (filepath issue_id : String) (h : envOk env) :
    ∃ body, download_issue env filepath issue_id
      = (.ok (), dlEvents filepath issue_id body) := by
  obtain ⟨⟨status, body, hhttp, hst, hlen⟩, hw, hr⟩ := h
  refine ⟨body, ?_⟩
  rw [download_issue_ok_spec env filepath issue_id status body hhttp hst
    hlen hw, hr]
  rfl

/-- Net filesystem effect of one successful download block: the temporary
path ends absent, the final path holds the body, everything else is
unchanged. -/
theorem applyEvents_dlEvents (fs : FS) (filepath issue_id body p : String) :
    applyEvents fs (dlEvents filepath issue_id body) p
      = if p = path_for_issue filepath issue_id true then none
        else if p = path_for_issue filepath issue_id false then some body
        else fs p := by
  simp only [applyEvents, dlEvents, List.foldl_cons, List.foldl_nil,
    applyEvent, setFile]
  by_cases h1 : p = path_for_issue filepath issue_id true
  · simp [h1]
  · by_cases h2 : p = path_for_issue filepath issue_id false
    · simp [h1, h2]
    · simp [h1, h2]

/-- Effect of the download loop under all-successful per-issue
environments: it returns `ok`, it preserves the presence of any final
issue file, and it makes every processed identifier's final file
present. -/
theorem download_missing_spec (env : CrawlEnv) (filepath : String)
    (hgood : ∀ id, envOk (env.issueEnv id)) :
    ∀ (l : List String) (fs : FS),
      (download_missing env filepath l).1 = CrawlResult.ok ∧
      (∀ a, (fs (path_for_issue filepath a false)).isSome = true →
        ((applyEvents fs (download_missing env filepath l).2)
          (path_for_issue filepath a false)).isSome = true) ∧
      (∀ id ∈ l,
        ((applyEvents fs (download_missing env filepath l).2)
          (path_for_issue filepath id false)).isSome = true) := by
  intro l
  induction l with
  | nil =>
      intro fs
      refine ⟨rfl, ?_, ?_⟩
      · intro a ha
        exact ha
      · intro id hid
        cases hid
  | cons issue_id rest ih =>
      intro fs
      obtain ⟨body, hdl⟩ := download_issue_envOk (env.issueEnv issue_id)
        filepath issue_id (hgood issue_id)
      rcases hrest : download_missing env filepath rest with ⟨r, events'⟩
      have hloop : download_missing env filepath (issue_id :: rest)
          = (r, dlEvents filepath issue_id body ++ events') := by
        simp only [download_missing, hdl, hrest]
      obtain ⟨ih1, ih2, ih3⟩ :=
        ih (applyEvents fs (dlEvents filepath issue_id body))
      rw [hrest] at ih1 ih2 ih3
      simp only at ih1 ih2 ih3
      refine ⟨?_, ?_, ?_⟩
      · rw [hloop]
        exact ih1
      · intro a ha
        rw [hloop]
        simp only
        rw [applyEvents_append]
        apply ih2
        rw [applyEvents_dlEvents]
        rw [if_neg (fun hc => path_for_issue_ne filepath a issue_id hc)]
        by_cases h2 : path_for_issue filepath a false
            = path_for_issue filepath issue_id false
        · rw [if_pos h2]
          rfl
        · rw [if_neg h2]
          exact ha
      · intro id hid
        rw [hloop]
        simp only
        rw [applyEvents_append]
        rcases List.mem_cons.mp hid with rfl | hmem
        · apply ih2
          rw [applyEvents_dlEvents]
          rw [if_neg (fun hc => path_for_issue_ne filepath id id hc),
            if_pos rfl]
          rfl
        · exact ih3 id hmem

/-- Unfolding of `bugcrawl` for a componentwise-given environment whose
directory creation succeeds. -/
theorem bugcrawl_eq (filepath : String) (readonly : Bool)
    (server : String → Nat → IssueListPage) (check : String → MetaResult)
    (issueEnv : String → DownloadEnv) (fuel : Nat) :
    bugcrawl { filepath := filepath, readonly := readonly }
        { mkdirRes := .ok (), server := server, check := check,
          issueEnv := issueEnv } fuel
      = match list_issues server fuel with
        | none => none
        | some (issue_ids, listEvents) =>
          match missingIssues check filepath issue_ids with
          | .panicked m =>
              some { result := .panicked m, events := listEvents }
          | .ok new_issue_ids =>
            match download_missing
                { mkdirRes := .ok (), server := server, check := check,
                  issueEnv := issueEnv } filepath new_issue_ids with
            | (r, dlEvents) =>
              some { result := r, events := listEvents ++ dlEvents } := rfl

/-- A completed run of `bugcrawl` assembled from the outcomes of its three
stages. -/
theorem bugcrawl_run (filepath : String) (readonly : Bool)
    (server : String → Nat → IssueListPage) (check : String → MetaResult)
    (issueEnv : String → DownloadEnv) (fuel : Nat)
    (issue_ids missing : List String) (listEvents dlEvs : List Event)
    (r : CrawlResult)
    (hls : list_issues server fuel = some (issue_ids, listEvents))
    (hfil : missingIssues check filepath issue_ids = .ok missing)
    (hdm : download_missing
        { mkdirRes := .ok (), server := server, check := check,
          issueEnv := issueEnv } filepath missing = (r, dlEvs)) :
    bugcrawl { filepath := filepath, readonly := readonly }
        { mkdirRes := .ok (), server := server, check := check,
          issueEnv := issueEnv } fuel
      = some { result := r, events := listEvents ++ dlEvs } := by
  rw [bugcrawl_eq, hls]
  show (match missingIssues check filepath issue_ids with
        | FilterResult.panicked m =>
            some (CrawlOutput.mk (CrawlResult.panicked m) listEvents)
        | FilterResult.ok new_issue_ids =>
            match download_missing
                { mkdirRes := .ok (), server := server, check := check,
                  issueEnv := issueEnv } filepath new_issue_ids with
            | (r', dlEvents') =>
                some (CrawlOutput.mk r' (listEvents ++ dlEvents')))
      = some (CrawlOutput.mk r (listEvents ++ dlEvs))
  rw [hfil]
  show (match download_missing
          { mkdirRes := .ok (), server := server, check := check,
            issueEnv := issueEnv } filepath missing with
        | (r', dlEvents') =>
            some (CrawlOutput.mk r' (listEvents ++ dlEvents')))
      = some (CrawlOutput.mk r (listEvents ++ dlEvs))
  rw [hdm]

/-- C9: idempotence.  If one crawl run over filesystem `fs0` — checks
derived from `fs0`, all per-issue environments successful — completes with
`ok`, then a second run against the unchanged listing service, with checks
derived from the filesystem state the first run left behind, computes an
empty missing set and downloads zero new files: its whole event trace is
the listing events alone and its result is `ok`. -/
theorem C9_idempotence (filepath : String) (readonly : Bool)
    (server : String → Nat → IssueListPage)
    (issueEnv : String → DownloadEnv) (fuel : Nat) (fs0 : FS)
    (out1 : CrawlOutput)
    (hgood : ∀ id, envOk (issueEnv id))
    (h1 : bugcrawl { filepath := filepath, readonly := readonly }
        { mkdirRes := .ok (), server := server, check := checkOf fs0,
          issueEnv := issueEnv } fuel = some out1)
    (hok : out1.result = CrawlResult.ok) :
    ∃ issue_ids listEvents,
      list_issues server fuel = some (issue_ids, listEvents) ∧
      missingIssues (checkOf (applyEvents fs0 out1.events)) filepath
        issue_ids = FilterResult.ok [] ∧
      bugcrawl { filepath := filepath, readonly := readonly }
          { mkdirRes := .ok (), server := server,
            check := checkOf (applyEvents fs0 out1.events),
            issueEnv := issueEnv } fuel
        = some { result := CrawlResult.ok, events := listEvents } := by
  cases hls : list_issues server fuel with
  | none =>
      have hnone : bugcrawl { filepath := filepath, readonly := readonly }
          { mkdirRes := .ok (), server := server, check := checkOf fs0,
            issueEnv := issueEnv } fuel = none := by
        rw [bugcrawl_eq, hls]
      rw [hnone] at h1
      cases h1
  | some p =>
      rcases p with ⟨issue_ids, listEvents⟩
      have hfil := missingIssues_eq_filter (checkOf fs0) filepath issue_ids
        (fun id _ => checkOf_isIoError fs0 _)
      rcases hdm : download_missing
          { mkdirRes := .ok (), server := server, check := checkOf fs0,
            issueEnv := issueEnv } filepath
          (issue_ids.filter (isMissing (checkOf fs0) filepath))
        with ⟨r, dlEvs⟩
      have hexp := bugcrawl_run filepath readonly server (checkOf fs0)
        issueEnv fuel issue_ids
        (issue_ids.filter (isMissing (checkOf fs0) filepath)) listEvents
        dlEvs r hls hfil hdm
      rw [hexp] at h1
      have hout : out1 = { result := r, events := listEvents ++ dlEvs } :=
        (Option.some.inj h1).symm
      obtain ⟨hr, hpres, hmake⟩ := download_missing_spec
        { mkdirRes := .ok (), server := server, check := checkOf fs0,
          issueEnv := issueEnv } filepath (fun id => hgood id)
        (issue_ids.filter (isMissing (checkOf fs0) filepath)) fs0
      rw [hdm] at hr hpres hmake
      simp only at hr hpres hmake
      obtain ⟨offs, hev, -, -, -, -⟩ :=
        list_issues_go_spec server _ _ _ _ _ _ hls
      have hlevs : applyEvents fs0 listEvents = fs0 := by
        rw [hev, List.nil_append]
        exact applyEvents_walkEvents offs fs0
      have hfs1 : applyEvents fs0 out1.events = applyEvents fs0 dlEvs := by
        rw [hout]
        simp only
        rw [applyEvents_append, hlevs]
      have hall : ∀ id ∈ issue_ids,
          ((applyEvents fs0 out1.events)
            (path_for_issue filepath id false)).isSome = true := by
        intro id hid
        rw [hfs1]
        by_cases hmiss : isMissing (checkOf fs0) filepath id = true
        · exact hmake id (List.mem_filter.mpr ⟨hid, hmiss⟩)
        · apply hpres
          rw [Bool.not_eq_true, isMissing, decide_eq_false_iff_not]
            at hmiss
          have hfound : checkOf fs0 (path_for_issue filepath id false)
              = MetaResult.found := by
            cases hc : checkOf fs0 (path_for_issue filepath id false) with
            | found => rfl
            | notFound => exact absurd hc hmiss
            | ioError e =>
                have hio := checkOf_isIoError fs0
                  (path_for_issue filepath id false)
                rw [hc] at hio
                cases hio
          exact (checkOf_found_iff fs0 _).mp hfound
      have hfil2 : missingIssues (checkOf (applyEvents fs0 out1.events))
          filepath issue_ids = FilterResult.ok [] := by
        rw [missingIssues_eq_filter (checkOf (applyEvents fs0 out1.events))
          filepath issue_ids (fun id _ => checkOf_isIoError _ _)]
        congr 1
        rw [List.filter_eq_nil_iff]
        intro id hid
        rw [isMissing, decide_eq_true_eq, checkOf_notFound_iff]
        intro hnone
        have hsome := hall id hid
        rw [hnone] at hsome
        cases hsome
      refine ⟨issue_ids, listEvents, rfl, hfil2, ?_⟩
      have hexp2 := bugcrawl_run filepath readonly server
        (checkOf (applyEvents fs0 out1.events)) issueEnv fuel issue_ids []
        listEvents [] CrawlResult.ok hls hfil2 rfl
      rw [hexp2, List.append_nil]

/-- Listing service for the C9 witness. -/
def wServer : String → Nat → IssueListPage := syntheticServer ["ISSUE-1"] 1

/-- All-successful download environments for the C9 witness. -/
def goodIssueEnv : String → DownloadEnv :=
  fun _ => { http := .response 200 "b", writeRes := .ok (),
             renameRes := .ok () }

/-- First-run output of the C9 witness. -/
def out1W : CrawlOutput :=
  { result := .ok,
    events := [Event.listRequest "created" 0, Event.sleep 500,
               Event.issueRequest "ISSUE-1",
               Event.fsWrite "bugs/ISSUE-1.json.tmp" "b",
               Event.fsRename "bugs/ISSUE-1.json.tmp" "bugs/ISSUE-1.json"
                 true,
               Event.sleep 3000] }

/-- Witness for C9 on a concrete one-issue crawl from an empty
directory. -/
theorem C9_idempotence_witness :
    (∀ id, envOk (goodIssueEnv id)) ∧
    bugcrawl { filepath := "bugs", readonly := false }
        { mkdirRes := .ok (), server := wServer, check := checkOf fsEmpty,
          issueEnv := goodIssueEnv } 1 = some out1W ∧
    out1W.result = CrawlResult.ok ∧
    ∃ issue_ids listEvents,
      list_issues wServer 1 = some (issue_ids, listEvents) ∧
      missingIssues (checkOf (applyEvents fsEmpty out1W.events)) "bugs"
        issue_ids = FilterResult.ok [] ∧
      bugcrawl { filepath := "bugs", readonly := false }
          { mkdirRes := .ok (), server := wServer,
            check := checkOf (applyEvents fsEmpty out1W.events),
            issueEnv := goodIssueEnv } 1
        = some { result := CrawlResult.ok, events := listEvents } := by
  have hgoodW : ∀ id, envOk (goodIssueEnv id) := fun _ =>
    ⟨⟨200, "b", rfl, by decide, by decide⟩, rfl, rfl⟩
  have hrun1 : bugcrawl { filepath := "bugs", readonly := false }
      { mkdirRes := .ok (), server := wServer, check := checkOf fsEmpty,
        issueEnv := goodIssueEnv } 1 = some out1W := by decide
  exact ⟨hgoodW, hrun1, rfl,
    C9_idempotence "bugs" false wServer goodIssueEnv 1 fsEmpty out1W hgoodW
      hrun1 rfl⟩
